import Mathlib

/-!
Shallow embedding of the enaml widget style-cascade resolver
(`enaml/widgets/widget.py`): the data model, `get_style`,
`get_stylesheet`, `_get_ancestor_stylesheets` and `_restyle`.

Modelling conventions, recorded once here:

* The surrounding object framework (`Style`/`StyleSheet` from
  `enaml/widgets/styling.py`, the `Application` singleton, `children`,
  `traverse_ancestors`, `proxy_is_active`, `proxy.restyle`) is not part of
  the sources; those pieces are modelled from the spec (see the doc
  comments below).
* Object identity is modelled by a natural-number tag; a `match`
  predicate receives the identity of the node it is matched against.
* Python exceptions are modelled with `Except`: a predicate that raises
  yields `Except.error (Err.predError c)`, and calling `.styles()` on an
  object that is not a `StyleSheet` yields `Except.error Err.attrError`
  (Python's `AttributeError`).
* `proxy.restyle(these_styles)` calls are recorded in a delivery log,
  one `(node identity, resolved style list)` entry per call.
-/

namespace Enaml

/-- The exceptions that can escape a resolution pass in the model:
`attrError` is Python's `AttributeError` (raised when `.styles()` is
called on an entry that is not a `StyleSheet`), `predError c` is an
arbitrary exception raised by a match predicate (with payload `c`). -/
inductive Err where
  | attrError
  | predError (code : Nat)

/-- Modelled from the spec: the `Style` class of
`enaml/widgets/styling.py` is not among the sources.  Per spec sections 2
and 3 a Rule is an immutable declaration with an opaque matching
predicate `match(node) -> specificity` (a non-negative integer, 0 = no
match) that may raise instead of returning (spec section 4.2).  `sid`
models the object's identity (Python 2's default comparison of two
`Style` instances falls back to an identity-based order); `smatch` is the
predicate, applied to the node's identity. -/
structure Style where
  sid : Nat
  smatch : Nat → Except Err Nat

/-- Modelled from the spec: the `StyleSheet` class of
`enaml/widgets/styling.py` is not among the sources.  Per spec section 3
a Scope is an ordered sequence of Rules (authoring order); `styles`
returns them in that order. -/
structure StyleSheet where
  ssid : Nat
  styles : List Style

mutual
/-- A child object of a widget.  The `children` list of an enaml
declarative object is heterogeneous: it may hold `Widget`s, `Style`s,
`StyleSheet`s and other declarative objects; the source filters with
`isinstance`.  `widget` carries the node identity, the
`proxy_is_active` flag and the (ordered) children. -/
inductive Obj where
  | widget (nid : Nat) (active : Bool) (children : ObjList)
  | styleChild (s : Style)
  | sheetChild (ss : StyleSheet)
  | other (oid : Nat)

/-- The ordered children of a widget (a specialised list so that the
mutual recursion of `_restyle` over the tree is structural). -/
inductive ObjList where
  | nil
  | cons (head : Obj) (tail : ObjList)
end

/-- Convert the children structure to an ordinary list. -/
def ObjList.toList : ObjList → List Obj
  | .nil => []
  | .cons c rest => c :: rest.toList

/-- `isinstance(child, Style)` as a partial projection. -/
def asStyle : Obj → Option Style
  | .styleChild s => some s
  | _ => none

/-- `isinstance(child, StyleSheet)` as a partial projection. -/
def asSheet : Obj → Option StyleSheet
  | .sheetChild ss => some ss
  | _ => none

/-- `Widget.get_style` (widget.py lines 154-166):
`for child in reversed(self.children): if isinstance(child, Style):
return child` — the first `Style` in the reversed children, i.e. the
last `Style` child, or `None`. -/
def get_style (children : ObjList) : Option Style :=
  children.toList.reverse.findSome? asStyle

/-- `Widget.get_stylesheet` (widget.py lines 168-180): the last
`StyleSheet` child, or `None`. -/
def get_stylesheet (children : ObjList) : Option StyleSheet :=
  children.toList.reverse.findSome? asSheet

/-- An element of the `sheets` list built by the resolver.  In Python
this list is heterogeneous: `_get_ancestor_stylesheets` appends the
ancestor *widget* `w` itself (line 255) while the application sheet
(line 258) and the node's own sheet (line 216) are `StyleSheet`
objects. -/
inductive Entry where
  | sheet (ss : StyleSheet)
  | wnode (nid : Nat) (active : Bool) (children : ObjList)

/-- `Widget._get_ancestor_stylesheets` (widget.py lines 240-261).

`ancestors` is the node's ancestor chain, nearest first, as
`traverse_ancestors()` yields it (modelled from the spec: the parent
walk is a Node capability of the surrounding framework).  `app` models
the `Application` global-scope provider: `some ss` exactly when
`Application.instance()` is not `None` and its `stylesheet` is not
`None`.

Note line 255: for an ancestor widget `w` owning a sheet the source
appends `w` itself (`sheets.append(w)`), not the sheet — modelled
faithfully by `Entry.wnode`.  The final `if sheets: sheets.reverse()`
is modelled by an unconditional reverse (reversing `[]` is `[]`). -/
def get_ancestor_stylesheets (app : Option StyleSheet) (ancestors : List Obj) :
    List Entry :=
  let step := fun (acc : List Entry) (w : Obj) =>
    match w with
    | .widget nid act cs =>
        match get_stylesheet cs with
        | some _ => acc ++ [Entry.wnode nid act cs]
        | none => acc
    | _ => acc
  let sheets := ancestors.foldl step []
  let sheets := match app with
    | some ss => sheets ++ [Entry.sheet ss]
    | none => sheets
  sheets.reverse

/-- `sheet.styles()` on an entry of the `sheets` list (widget.py line
226).  On a `StyleSheet` this returns the authored rules; on a widget
entry (possible via the line-255 defect) Python raises
`AttributeError`. -/
def entryStyles : Entry → Except Err (List Style)
  | .sheet ss => .ok ss.styles
  | .wnode _ _ _ => .error .attrError

/-- The inner `for style in sheet.styles()` loop of widget.py lines
226-229: evaluate each predicate in authoring order, keep
`(specificity, style)` pairs with positive specificity; a raising
predicate aborts the loop. -/
def sheetMatches (nid : Nat) : List Style → Except Err (List (Nat × Style))
  | [] => .ok []
  | s :: rest =>
    match s.smatch nid with
    | .error er => .error er
    | .ok sp =>
      match sheetMatches nid rest with
      | .error er => .error er
      | .ok ms => .ok (if sp > 0 then (sp, s) :: ms else ms)

/-- The order in which Python 2 sorts the `(specificity, style)` tuples
of `matches.sort()` (widget.py line 231): tuples compare element-wise,
so by specificity first, and on ties by comparison of the two `Style`
objects, which (no ordering methods, see `Style`) falls back to the
identity-based default order, modelled by `sid`. -/
def keyLe (a b : Nat × Style) : Prop :=
  a.1 < b.1 ∨ (a.1 = b.1 ∧ a.2.sid ≤ b.2.sid)

instance (a b : Nat × Style) : Decidable (keyLe a b) := by
  unfold keyLe; exact inferInstance

instance : IsTotal (Nat × Style) keyLe := by
  constructor; intro a b; unfold keyLe; omega

instance : IsTrans (Nat × Style) keyLe := by
  constructor; intro a b c; unfold keyLe; omega

/-- `matches.sort()` (widget.py line 231): a sort of the match pairs by
`keyLe`.  `keyLe` is a total order that is antisymmetric whenever
distinct styles have distinct `sid`s, so any correct sort produces the
same list Python does. -/
def sortMatches (ms : List (Nat × Style)) : List (Nat × Style) :=
  List.insertionSort keyLe ms

/-- The body of one iteration of the `for sheet in sheets` loop of
widget.py lines 224-232: the styles this one entry contributes to
`these_styles` — the positive matches, sorted, projected back to
styles; the `if matches:` guard means an empty match list contributes
nothing. -/
def entryBlock (nid : Nat) (e : Entry) : Except Err (List Style) :=
  match entryStyles e with
  | .error er => .error er
  | .ok styles =>
    match sheetMatches nid styles with
    | .error er => .error er
    | .ok ms => .ok (if ms.isEmpty then [] else (sortMatches ms).map Prod.snd)

/-- The outer `for sheet in sheets` loop of widget.py lines 223-232:
`these_styles` is extended with each entry's block, in entry order; an
exception in one iteration aborts the loop. -/
def computeStyles (nid : Nat) : List Entry → Except Err (List Style)
  | [] => .ok []
  | e :: rest =>
    match entryBlock nid e with
    | .error er => .error er
    | .ok block =>
      match computeStyles nid rest with
      | .error er => .error er
      | .ok restStyles => .ok (block ++ restStyles)

/-- widget.py lines 223-236: the matching loop followed by the
unconditional append of the node's own `Style` (the Override), when
present. -/
def computeNodeStyles (nid : Nat) (sheets : List Entry) (children : ObjList) :
    Except Err (List Style) :=
  match computeStyles nid sheets with
  | .error er => .error er
  | .ok these =>
    .ok (match get_style children with
      | some st => these ++ [st]
      | none => these)

/-- widget.py lines 209-216: choose the base chain (fresh collection
when `ancestors` is `None`, otherwise a copy of the caller's list) and
append the node's own sheet when present. -/
def extendSheets (app : Option StyleSheet) (ancUp : List Obj)
    (ancestors : Option (List Entry)) (children : ObjList) : List Entry :=
  let base := match ancestors with
    | none => get_ancestor_stylesheets app ancUp
    | some a => a
  match get_stylesheet children with
  | some ss => base ++ [Entry.sheet ss]
  | none => base

/-- One `proxy.restyle` call: the node's identity and the resolved
style list it received. -/
abbrev Delivery := Nat × List Style

mutual
/-- `Widget._restyle` (widget.py lines 195-238), value-level rendering.

`ancUp` is the node's ancestor chain (nearest first); `ancestors` is the
optional precomputed sheet chain argument.  Returns the delivery log (in
call order) and the exception that escaped the call, if any.  The guard
at line 206 (`if not self.proxy_is_active: return`) precedes everything,
so an inactive widget produces no deliveries at all.  Children are
restyled first (lines 219-221), each receiving the extended sheet chain;
an exception from a child propagates immediately.  Only then is the
node's own style list computed (lines 223-236) and delivered (line 238).
Non-widget objects are never restyled (the callers guard with
`isinstance(child, Widget)`); on them the model returns an empty run. -/
def restyle (app : Option StyleSheet) (o : Obj) (ancUp : List Obj)
    (ancestors : Option (List Entry)) : List Delivery × Option Err :=
  match o with
  | .widget nid act cs =>
    if act then
      let sheets := extendSheets app ancUp ancestors cs
      match restyleChildren app cs (o :: ancUp) sheets with
      | (clog, some e) => (clog, some e)
      | (clog, none) =>
        match computeNodeStyles nid sheets cs with
        | .error e => (clog, some e)
        | .ok these => (clog ++ [(nid, these)], none)
    else ([], none)
  | _ => ([], none)

/-- The `for child in self.children` loop of widget.py lines 219-221:
restyle each `Widget` child in order, passing the extended chain; an
exception from one child skips the remaining siblings. -/
def restyleChildren (app : Option StyleSheet) (cs : ObjList)
    (ancUp : List Obj) (sheets : List Entry) : List Delivery × Option Err :=
  match cs with
  | .nil => ([], none)
  | .cons c rest =>
    match c with
    | .widget _ _ _ =>
      match restyle app c ancUp (some sheets) with
      | (l1, some e) => (l1, some e)
      | (l1, none) =>
        let (l2, e2) := restyleChildren app rest ancUp sheets
        (l1 ++ l2, e2)
    | _ => restyleChildren app rest ancUp sheets
end

/-!
### Heap-level rendering of `_restyle`

The `sheets` list is the one mutable Python object that crosses call
boundaries during a pass (`child._restyle(sheets)`, line 221).  To
settle the frame claim about it, `restyleH` renders `_restyle` over an
explicit store of list objects: `Heap.store` maps a list-object
reference to its contents and `Heap.next` is the next fresh reference.
Lines 209-212 always bind `sheets` to a *new* object — either the fresh
list built by `_get_ancestor_stylesheets` or the slice copy
`ancestors[:]` — so the model allocates at `next` in both cases;
`sheets.append` (line 216) then mutates only that fresh object.  The
`these_styles` list never escapes a call, so the matching phase stays
value-level (`computeNodeStyles`), reading the `sheets` contents after
the child loop, exactly where line 224 reads them.
-/

/-- A store of Python list objects: contents per reference, plus the
next fresh reference. -/
structure Heap where
  next : Nat
  store : Nat → List Entry

mutual
/-- `Widget._restyle` (widget.py lines 195-238) over the list-object
store: like `restyle`, but the precomputed-ancestors argument is a
*reference* to the caller's list object.  The fresh list of lines
209-212 (collection result, or slice copy of the caller's contents) is
allocated at reference `h.next`, already extended with the node's own
sheet — no other code can observe the object between lines 212 and 216,
so allocating the extended contents in one step is observationally the
`append` of line 216.  The final store is returned alongside the run. -/
def restyleH (app : Option StyleSheet) (o : Obj) (ancUp : List Obj)
    (ancRef : Option Nat) (h : Heap) : Heap × (List Delivery × Option Err) :=
  match o with
  | .widget nid act cs =>
    if act then
      let contents := match ancRef with
        | none => get_ancestor_stylesheets app ancUp
        | some a => h.store a
      let r := h.next
      let sheets := match get_stylesheet cs with
        | some ss => contents ++ [Entry.sheet ss]
        | none => contents
      let h2 : Heap := ⟨h.next + 1, fun n => if n = r then sheets else h.store n⟩
      match restyleChildrenH app cs (o :: ancUp) r h2 with
      | (h3, clog, some e) => (h3, clog, some e)
      | (h3, clog, none) =>
        match computeNodeStyles nid (h3.store r) cs with
        | .error e => (h3, clog, some e)
        | .ok these => (h3, clog ++ [(nid, these)], none)
    else (h, [], none)
  | _ => (h, [], none)

/-- The child loop of widget.py lines 219-221 over the store: each
widget child receives the *reference* `r` to the parent's `sheets`
object. -/
def restyleChildrenH (app : Option StyleSheet) (cs : ObjList)
    (ancUp : List Obj) (r : Nat) (h : Heap) :
    Heap × (List Delivery × Option Err) :=
  match cs with
  | .nil => (h, [], none)
  | .cons c rest =>
    match c with
    | .widget _ _ _ =>
      match restyleH app c ancUp (some r) h with
      | (h1, l1, some e) => (h1, l1, some e)
      | (h1, l1, none) =>
        match restyleChildrenH app rest ancUp r h1 with
        | (h2, l2, e2) => (h2, l1 ++ l2, e2)
    | _ => restyleChildrenH app rest ancUp r h
end

/-! ### Concrete fixtures used by counterexamples and witnesses -/

/-- A rule matching every node with specificity 5; identity 1. -/
def styleA : Style := ⟨1, fun _ => .ok 5⟩

/-- A rule matching every node with specificity 5; identity 2. -/
def styleB : Style := ⟨2, fun _ => .ok 5⟩

/-- A scope authored as `[styleB, styleA]`: `styleB` first, although its
identity tag is the larger one. -/
def sheetTie : StyleSheet := ⟨9, [styleB, styleA]⟩

/-- A rule matching only the node with identity 1 (specificity 1). -/
def ruleA : Style := ⟨3, fun n => .ok (if n = 1 then 1 else 0)⟩

/-- A scope holding only `ruleA`. -/
def sheetA : StyleSheet := ⟨10, [ruleA]⟩

/-- A childless active widget with identity 1. -/
def widgetB : Obj := Obj.widget 1 true .nil

/-- The children of `widgetA`: its own stylesheet `sheetA`, then the
child widget `widgetB`. -/
def childrenA : ObjList := .cons (.sheetChild sheetA) (.cons widgetB .nil)

/-- An active root widget owning `sheetA`, with child `widgetB`. -/
def widgetA : Obj := Obj.widget 0 true childrenA

/-- An inactive root widget whose only child is the active `widgetB`. -/
def inactiveRoot : Obj := Obj.widget 0 false (.cons widgetB .nil)

/-- A rule whose predicate raises (payload 7) instead of returning. -/
def ruleRaise : Style := ⟨4, fun _ => .error (Err.predError 7)⟩

/-- A scope holding only the raising rule. -/
def sheetRaise : StyleSheet := ⟨11, [ruleRaise]⟩

/-- An active widget owning `sheetRaise` as its stylesheet, so that
resolving it evaluates the raising predicate. -/
def widgetRaise : Obj := Obj.widget 2 true (.cons (.sheetChild sheetRaise) .nil)

/-- A scope holding only `styleA`. -/
def sheetP : StyleSheet := ⟨12, [styleA]⟩

/-- A scope holding only `styleB`. -/
def sheetQ : StyleSheet := ⟨13, [styleB]⟩

/-- Does the `sheets` entry hold a `StyleSheet` object? -/
def Entry.isSheet : Entry → Bool
  | .sheet _ => true
  | _ => false

/-- A one-object heap whose list object 0 is empty: fixture for the
frame-claim witness. -/
def heap0 : Heap := ⟨1, fun _ => []⟩

/-! ### Claims -/

/-- One-step unfolding of `restyle` at an active widget. -/
theorem restyle_widget_true_eq (app : Option StyleSheet) (nid : Nat)
    (cs : ObjList) (ancUp : List Obj) (anc : Option (List Entry)) :
    restyle app (Obj.widget nid true cs) ancUp anc =
      (match restyleChildren app cs (Obj.widget nid true cs :: ancUp)
          (extendSheets app ancUp anc cs) with
        | (clog, some e) => (clog, some e)
        | (clog, none) =>
          match computeNodeStyles nid (extendSheets app ancUp anc cs) cs with
          | .error e => (clog, some e)
          | .ok these => (clog ++ [(nid, these)], none)) := rfl

mutual
/-- Frame and refinement property of the heap-level rendering: a
`_restyle` call never touches a list object that existed before the
call (it allocates its own `sheets` object and mutates only that), and
when it is given a reference to a precomputed ancestors list its run is
exactly the value-level `restyle` applied to the *contents* of that
list at entry. -/
theorem restyleH_spec (app : Option StyleSheet) (o : Obj) (ancUp : List Obj)
    (ancRef : Option Nat) (h : Heap) :
    h.next ≤ (restyleH app o ancUp ancRef h).1.next ∧
    (∀ b, b < h.next → (restyleH app o ancUp ancRef h).1.store b = h.store b) ∧
    (∀ a, ancRef = some a → a < h.next →
      (restyleH app o ancUp ancRef h).2 = restyle app o ancUp (some (h.store a))) := by
  cases o with
  | styleChild s => exact ⟨Nat.le_refl _, fun b _ => rfl, fun a _ _ => rfl⟩
  | sheetChild ss => exact ⟨Nat.le_refl _, fun b _ => rfl, fun a _ _ => rfl⟩
  | other oid => exact ⟨Nat.le_refl _, fun b _ => rfl, fun a _ _ => rfl⟩
  | widget nid act cs =>
    cases act with
    | false => exact ⟨Nat.le_refl _, fun b _ => rfl, fun a _ _ => rfl⟩
    | true =>
      set sheetsVal : List Entry := (match get_stylesheet cs with
        | some ss =>
            (match ancRef with
              | none => get_ancestor_stylesheets app ancUp
              | some a => h.store a) ++ [Entry.sheet ss]
        | none =>
            match ancRef with
            | none => get_ancestor_stylesheets app ancUp
            | some a => h.store a) with hS0
      set h2 : Heap :=
        ⟨h.next + 1, fun n => if n = h.next then sheetsVal else h.store n⟩ with hh2
      have h2next : h2.next = h.next + 1 := rfl
      have hun : restyleH app (Obj.widget nid true cs) ancUp ancRef h =
          (match restyleChildrenH app cs (Obj.widget nid true cs :: ancUp)
              h.next h2 with
            | (h3, clog, some e) => (h3, clog, some e)
            | (h3, clog, none) =>
              match computeNodeStyles nid (h3.store h.next) cs with
              | .error e => (h3, clog, some e)
              | .ok these => (h3, clog ++ [(nid, these)], none)) := rfl
      obtain ⟨cnext, cframe, cref⟩ := restyleChildrenH_spec app cs
        (Obj.widget nid true cs :: ancUp) h.next h2
        (by rw [h2next]; exact Nat.lt_succ_self _)
      rcases hS : restyleChildrenH app cs (Obj.widget nid true cs :: ancUp) h.next h2
        with ⟨h3, clog, cerr⟩
      rw [hS] at cnext cframe cref
      have cnext' : h2.next ≤ h3.next := cnext
      have cframe' : ∀ b, b < h2.next → h3.store b = h2.store b := cframe
      have cref' : (clog, cerr) =
          restyleChildren app cs (Obj.widget nid true cs :: ancUp)
            (h2.store h.next) := cref
      have hnext3 : h.next + 1 ≤ h3.next := by
        rw [h2next] at cnext'
        exact cnext'
      have hstore3 : ∀ b, b < h.next → h3.store b = h.store b := by
        intro b hb
        have hb2 : b < h2.next := by rw [h2next]; omega
        rw [cframe' b hb2]
        exact if_neg (by omega)
      have h2r : h2.store h.next = sheetsVal := if_pos rfl
      have hstore3r : h3.store h.next = sheetsVal := by
        rw [cframe' h.next (by rw [h2next]; exact Nat.lt_succ_self _), h2r]
      rw [h2r] at cref'
      cases cerr with
      | some e =>
        have hres : restyleH app (Obj.widget nid true cs) ancUp ancRef h =
            (h3, clog, some e) := by
          rw [hun, hS]
        refine ⟨?_, ?_, ?_⟩
        · rw [hres]; exact Nat.le_trans (Nat.le_succ _) hnext3
        · intro b hb; rw [hres]; exact hstore3 b hb
        · intro a ha hlt
          subst ha
          rw [hres, restyle_widget_true_eq]
          have hbridge : extendSheets app ancUp (some (h.store a)) cs = sheetsVal := by
            simp [extendSheets, hS0]
          rw [hbridge, ← cref']
      | none =>
        have step : restyleH app (Obj.widget nid true cs) ancUp ancRef h =
            (match computeNodeStyles nid (h3.store h.next) cs with
              | .error e => (h3, clog, some e)
              | .ok these => (h3, clog ++ [(nid, these)], none)) := by
          rw [hun, hS]
        cases hcn : computeNodeStyles nid (h3.store h.next) cs with
        | error e =>
          have hres : restyleH app (Obj.widget nid true cs) ancUp ancRef h =
              (h3, clog, some e) := by rw [step, hcn]
          refine ⟨?_, ?_, ?_⟩
          · rw [hres]; exact Nat.le_trans (Nat.le_succ _) hnext3
          · intro b hb; rw [hres]; exact hstore3 b hb
          · intro a ha hlt
            subst ha
            rw [hres, restyle_widget_true_eq]
            have hbridge : extendSheets app ancUp (some (h.store a)) cs = sheetsVal := by
              simp [extendSheets, hS0]
            rw [hbridge, ← cref', ← hstore3r, hcn]
        | ok these =>
          have hres : restyleH app (Obj.widget nid true cs) ancUp ancRef h =
              (h3, clog ++ [(nid, these)], none) := by rw [step, hcn]
          refine ⟨?_, ?_, ?_⟩
          · rw [hres]; exact Nat.le_trans (Nat.le_succ _) hnext3
          · intro b hb; rw [hres]; exact hstore3 b hb
          · intro a ha hlt
            subst ha
            rw [hres, restyle_widget_true_eq]
            have hbridge : extendSheets app ancUp (some (h.store a)) cs = sheetsVal := by
              simp [extendSheets, hS0]
            rw [hbridge, ← cref', ← hstore3r, hcn]

/-- Frame and refinement property of the heap-level child loop, given
that the parent's `sheets` reference `r` predates the heap's frontier:
the loop only allocates, never mutates pre-existing objects, and the
run equals the value-level loop applied to the contents at `r` — so
every sibling observes the same chain contents. -/
theorem restyleChildrenH_spec (app : Option StyleSheet) (cs : ObjList)
    (ancUp : List Obj) (r : Nat) (h : Heap) (hr : r < h.next) :
    h.next ≤ (restyleChildrenH app cs ancUp r h).1.next ∧
    (∀ b, b < h.next → (restyleChildrenH app cs ancUp r h).1.store b = h.store b) ∧
    (restyleChildrenH app cs ancUp r h).2 =
      restyleChildren app cs ancUp (h.store r) := by
  cases cs with
  | nil => exact ⟨Nat.le_refl _, fun b _ => rfl, rfl⟩
  | cons c rest =>
    cases c with
    | styleChild s => exact restyleChildrenH_spec app rest ancUp r h hr
    | sheetChild ss => exact restyleChildrenH_spec app rest ancUp r h hr
    | other oid => exact restyleChildrenH_spec app rest ancUp r h hr
    | widget nid act gcs =>
      obtain ⟨rnext, rframe, rref⟩ :=
        restyleH_spec app (Obj.widget nid act gcs) ancUp (some r) h
      rcases hS1 : restyleH app (Obj.widget nid act gcs) ancUp (some r) h
        with ⟨h1, l1, e1⟩
      rw [hS1] at rnext rframe rref
      have rnext' : h.next ≤ h1.next := rnext
      have rframe' : ∀ b, b < h.next → h1.store b = h.store b := rframe
      have rref' : (l1, e1) =
          restyle app (Obj.widget nid act gcs) ancUp (some (h.store r)) :=
        rref r rfl hr
      have hun : restyleChildrenH app (.cons (Obj.widget nid act gcs) rest) ancUp r h =
          (match restyleH app (Obj.widget nid act gcs) ancUp (some r) h with
            | (h1, l1, some e) => (h1, l1, some e)
            | (h1, l1, none) =>
              match restyleChildrenH app rest ancUp r h1 with
              | (h2, l2, e2) => (h2, l1 ++ l2, e2)) := rfl
      have hunP : restyleChildren app (.cons (Obj.widget nid act gcs) rest) ancUp
            (h.store r) =
          (match restyle app (Obj.widget nid act gcs) ancUp (some (h.store r)) with
            | (l1, some e) => (l1, some e)
            | (l1, none) =>
              let p := restyleChildren app rest ancUp (h.store r)
              (l1 ++ p.1, p.2)) := rfl
      cases e1 with
      | some e =>
        have hres : restyleChildrenH app (.cons (Obj.widget nid act gcs) rest)
            ancUp r h = (h1, l1, some e) := by
          rw [hun, hS1]
        have hresP : restyleChildren app (.cons (Obj.widget nid act gcs) rest)
            ancUp (h.store r) = (l1, some e) := by
          rw [hunP, ← rref']
        refine ⟨?_, ?_, ?_⟩
        · rw [hres]; exact rnext'
        · intro b hb; rw [hres]; exact rframe' b hb
        · rw [hres, hresP]
      | none =>
        obtain ⟨inext, iframe, iref⟩ :=
          restyleChildrenH_spec app rest ancUp r h1 (Nat.lt_of_lt_of_le hr rnext')
        rcases hS2 : restyleChildrenH app rest ancUp r h1 with ⟨h2, l2, e2⟩
        rw [hS2] at inext iframe iref
        have inext' : h1.next ≤ h2.next := inext
        have iframe' : ∀ b, b < h1.next → h2.store b = h1.store b := iframe
        have iref' : (l2, e2) = restyleChildren app rest ancUp (h1.store r) := iref
        have hstore1r : h1.store r = h.store r := rframe' r hr
        have hres : restyleChildrenH app (.cons (Obj.widget nid act gcs) rest)
            ancUp r h = (h2, l1 ++ l2, e2) := by
          have step : restyleChildrenH app (.cons (Obj.widget nid act gcs) rest)
              ancUp r h =
              (match restyleChildrenH app rest ancUp r h1 with
                | (h2, l2, e2) => (h2, l1 ++ l2, e2)) := by
            rw [hun, hS1]
          rw [step, hS2]
        have hresP : restyleChildren app (.cons (Obj.widget nid act gcs) rest)
            ancUp (h.store r) = (l1 ++ l2, e2) := by
          have step : restyleChildren app (.cons (Obj.widget nid act gcs) rest)
              ancUp (h.store r) =
              (let p := restyleChildren app rest ancUp (h.store r)
               (l1 ++ p.1, p.2)) := by
            rw [hunP, ← rref']
          rw [step, ← hstore1r, ← iref']
        refine ⟨?_, ?_, ?_⟩
        · rw [hres]; exact Nat.le_trans rnext' inext'
        · intro b hb
          rw [hres]
          exact (iframe' b (Nat.lt_of_lt_of_le hb rnext')).trans (rframe' b hb)
        · rw [hres, hresP]
end

/-- C1: the claim reads "ancestor-scope collection … returns the ordered
list of Scope (StyleSheet) objects visible to the Node … each list entry
being the ancestor's Scope object itself".  The source
(`_get_ancestor_stylesheets`, line 255) appends the ancestor *widget*
`w`, not its resolved stylesheet, contradicting its own docstring ("A
list of stylesheet objects").  For a node whose single ancestor
`widgetA` owns `sheetA`, the collection returns the widget entry, which
is not a `StyleSheet` entry and differs from the list `[sheetA]` the
docstring and the claim describe. -/
theorem c1_ancestor_collection_collects_widget :
    get_ancestor_stylesheets none [widgetA] = [Entry.wnode 0 true childrenA] ∧
    (get_ancestor_stylesheets none [widgetA]).map Entry.isSheet = [false] ∧
    ([Entry.wnode 0 true childrenA] : List Entry) ≠ [Entry.sheet sheetA] := by
  refine ⟨rfl, rfl, ?_⟩
  intro h
  simp at h

/-- C2 counterexample: the claim says that when a Node's Sink is
inactive only that Node's own matching and delivery are skipped and its
children are still visited and resolved.  In the source the guard
`if not self.proxy_is_active: return` (line 206) fires *before* the
child loop, so the whole subtree is skipped: restyling `inactiveRoot`
(inactive, with active child `widgetB`) delivers nothing at all — in
particular no delivery for node 1 — although `widgetB` on its own
resolves and receives a delivery. -/
theorem c2_counterexample :
    restyle none inactiveRoot [] none = ([], none) ∧
    restyle none widgetB [inactiveRoot] (some []) = ([(1, [])], none) :=
  ⟨rfl, rfl⟩

/-- C2 amended: when a Node's Sink is inactive, `_restyle` returns
before doing anything, so the *entire subtree* rooted at that Node is
skipped in that pass: no matching, no delivery for the Node or for any
descendant, and no error. -/
theorem c2_inactive_skips_subtree (app : Option StyleSheet) (nid : Nat)
    (cs : ObjList) (ancUp : List Obj) (anc : Option (List Entry)) :
    restyle app (Obj.widget nid false cs) ancUp anc = ([], none) :=
  rfl

/-- C3 counterexample: the claim says two rules of one scope matching
with equal nonzero specificity keep their authoring order in the
resolved list.  `matches.sort()` (line 231) sorts `(specificity, style)`
tuples, so specificity ties are broken by comparing the `Style` objects
themselves — an identity-based order unrelated to authoring order.  In
`sheetTie` the authoring order is `[styleB, styleA]`, both match node 0
with specificity 5, yet the resolved list is `[styleA, styleB]`. -/
theorem c3_counterexample :
    styleB.smatch 0 = .ok 5 ∧ styleA.smatch 0 = .ok 5 ∧ styleA ≠ styleB ∧
    sheetTie.styles = [styleB, styleA] ∧
    computeStyles 0 [Entry.sheet sheetTie] = .ok [styleA, styleB] := by
  refine ⟨rfl, rfl, ?_, rfl, rfl⟩
  intro h
  have h' := congrArg Style.sid h
  simp [styleA, styleB] at h'

/-- C3 amended: within a single Scope, the block contributed to the
Resolved Style List is a permutation of the positive matches sorted by
specificity first and, on equal specificities, by the order of the
`Style` objects themselves (Python's default identity-based comparison,
modelled by `sid`) — not by authoring position; authoring order survives
only when the identity order happens to agree with it. -/
theorem c3_ties_ordered_by_identity (ss : StyleSheet) (nid : Nat)
    (ms : List (Nat × Style)) (h : sheetMatches nid ss.styles = .ok ms) :
    ∃ ms', computeStyles nid [Entry.sheet ss] = .ok (ms'.map Prod.snd) ∧
      ms'.Perm ms ∧ List.Sorted keyLe ms' := by
  refine ⟨sortMatches ms, ?_, List.perm_insertionSort keyLe ms,
    List.sorted_insertionSort keyLe ms⟩
  by_cases hN : ms.isEmpty
  · have : ms = [] := List.isEmpty_iff.mp hN
    subst this
    simp [computeStyles, entryBlock, entryStyles, h, sortMatches,
      List.insertionSort]
  · simp [computeStyles, entryBlock, entryStyles, h, hN]

/-- Witness for C3's amended theorem at `sheetTie` and node 0. -/
theorem c3_ties_ordered_by_identity_witness :
    sheetMatches 0 sheetTie.styles = .ok [(5, styleB), (5, styleA)] ∧
    ∃ ms', computeStyles 0 [Entry.sheet sheetTie] = .ok (ms'.map Prod.snd) ∧
      ms'.Perm [(5, styleB), (5, styleA)] ∧ List.Sorted keyLe ms' :=
  ⟨rfl, c3_ties_ordered_by_identity sheetTie 0 [(5, styleB), (5, styleA)] rfl⟩

/-- C4: the claim says resolving a Node with `ancestors = None` (fresh
upward collection) and resolving it with the chain passed down by the
traversal driver produce identical chains and identical resolved lists.
Because the fresh collection appends ancestor *widgets* (line 255)
while the driver passes real stylesheets, the two disagree as soon as an
ancestor owns a sheet: resolving `widgetB` (child of `widgetA`, which
owns `sheetA`) freshly raises `AttributeError` when `sheet.styles()` is
called on the widget entry, while resolving it with the driver's chain
`[sheetA]` succeeds and delivers `[ruleA]`. -/
theorem c4_fresh_vs_passed_disagree :
    restyle none widgetB [widgetA] none = ([], some Err.attrError) ∧
    restyle none widgetB [widgetA] (some [Entry.sheet sheetA]) =
      ([(1, [ruleA])], none) ∧
    (([], some Err.attrError) : List Delivery × Option Err) ≠
      ([(1, [ruleA])], none) := by
  refine ⟨rfl, rfl, ?_⟩
  intro h
  simp at h

/-- C5: for a Node owning an Override (a `Style` child), any resolved
style list produced for it ends with that Override: `_restyle` appends
`this_style` unconditionally after the matching loop (lines 234-236),
independently of any specificity. -/
theorem c5_override_always_last (nid : Nat) (sheets : List Entry)
    (children : ObjList) (st : Style) (l : List Style)
    (hst : get_style children = some st)
    (hok : computeNodeStyles nid sheets children = .ok l) :
    l.getLast? = some st := by
  unfold computeNodeStyles at hok
  cases hcs : computeStyles nid sheets with
  | error er => rw [hcs] at hok; exact absurd hok (by simp)
  | ok these =>
    rw [hcs, hst] at hok
    injection hok with hok'
    subst hok'
    exact List.getLast?_concat _

/-- Witness for C5 at a node owning only the Override `styleA`. -/
theorem c5_override_always_last_witness :
    get_style (.cons (.styleChild styleA) .nil) = some styleA ∧
    computeNodeStyles 0 [] (.cons (.styleChild styleA) .nil) = .ok [styleA] ∧
    ([styleA] : List Style).getLast? = some styleA :=
  ⟨rfl, rfl, c5_override_always_last 0 [] (.cons (.styleChild styleA) .nil)
    styleA [styleA] rfl rfl⟩

/-- C6: matches from different Scopes are never interleaved — the
matching loop (lines 223-232) appends each entry's sorted block whole,
in chain order, so the resolved list for any split of the chain into a
lower-precedence prefix and a higher-precedence suffix is the prefix's
contribution followed by the suffix's contribution, whatever the
individual specificities are. -/
theorem c6_scope_blocks_never_interleave (nid : Nat) (xs ys : List Entry)
    (l1 l2 : List Style) (h1 : computeStyles nid xs = .ok l1)
    (h2 : computeStyles nid ys = .ok l2) :
    computeStyles nid (xs ++ ys) = .ok (l1 ++ l2) := by
  induction xs generalizing l1 with
  | nil =>
    have h1' : Except.ok ([] : List Style) = .ok l1 := h1
    injection h1' with h1''
    subst h1''
    simpa using h2
  | cons e xs ih =>
    rw [List.cons_append]
    cases hb : entryBlock nid e with
    | error er =>
      rw [show computeStyles nid (e :: xs) = .error er by
        simp [computeStyles, hb]] at h1
      exact absurd h1 (by simp)
    | ok block =>
      cases hr : computeStyles nid xs with
      | error er =>
        rw [show computeStyles nid (e :: xs) = .error er by
          simp [computeStyles, hb, hr]] at h1
        exact absurd h1 (by simp)
      | ok restStyles =>
        rw [show computeStyles nid (e :: xs) = .ok (block ++ restStyles) by
          simp [computeStyles, hb, hr]] at h1
        injection h1 with h1'
        subst h1'
        simp [computeStyles, hb, ih restStyles hr, List.append_assoc]

/-- Witness for C6: a two-scope chain, `sheetP` (contributing
`[styleA]`) before `sheetQ` (contributing `[styleB]`). -/
theorem c6_scope_blocks_never_interleave_witness :
    computeStyles 0 [Entry.sheet sheetP] = .ok [styleA] ∧
    computeStyles 0 [Entry.sheet sheetQ] = .ok [styleB] ∧
    computeStyles 0 ([Entry.sheet sheetP] ++ [Entry.sheet sheetQ]) =
      .ok ([styleA] ++ [styleB]) :=
  ⟨rfl, rfl, c6_scope_blocks_never_interleave 0 _ _ _ _ rfl rfl⟩

/-- C7: a match predicate that raises is not handled by the resolver.
Part one: if restyling a child widget ends in an exception, the
children loop (lines 219-221) stops there — the remaining siblings
`rest` are never visited and the same exception, with the same payload,
escapes.  Part two: if the node's own matching phase (lines 223-236)
raises after its children completed, the node's own delivery never
happens (the log stays exactly the children's log) and the same
exception escapes to the caller — no retry, no logging, no
swallowing. -/
theorem c7_predicate_failure_propagates :
    (∀ (app : Option StyleSheet) (n : Nat) (a : Bool) (g rest : ObjList)
        (ancUp : List Obj) (sheets : List Entry) (l : List Delivery) (e : Err),
        restyle app (Obj.widget n a g) ancUp (some sheets) = (l, some e) →
        restyleChildren app (.cons (Obj.widget n a g) rest) ancUp sheets =
          (l, some e)) ∧
    (∀ (app : Option StyleSheet) (nid : Nat) (cs : ObjList) (ancUp : List Obj)
        (anc : Option (List Entry)) (clog : List Delivery) (e : Err),
        restyleChildren app cs (Obj.widget nid true cs :: ancUp)
            (extendSheets app ancUp anc cs) = (clog, none) →
        computeNodeStyles nid (extendSheets app ancUp anc cs) cs = .error e →
        restyle app (Obj.widget nid true cs) ancUp anc = (clog, some e)) := by
  constructor
  · intro app n a g rest ancUp sheets l e h
    have hun : restyleChildren app (.cons (Obj.widget n a g) rest) ancUp sheets =
        (match restyle app (Obj.widget n a g) ancUp (some sheets) with
          | (l1, some e) => (l1, some e)
          | (l1, none) =>
            let p := restyleChildren app rest ancUp sheets
            (l1 ++ p.1, p.2)) := rfl
    rw [hun, h]
  · intro app nid cs ancUp anc clog e hc hs
    have hun : restyle app (Obj.widget nid true cs) ancUp anc =
        (match restyleChildren app cs (Obj.widget nid true cs :: ancUp)
            (extendSheets app ancUp anc cs) with
          | (clog, some e) => (clog, some e)
          | (clog, none) =>
            match computeNodeStyles nid (extendSheets app ancUp anc cs) cs with
            | .error e => (clog, some e)
            | .ok these => (clog ++ [(nid, these)], none)) := rfl
    rw [hun, hc, hs]

/-- Witness for C7: `widgetRaise` owns the raising rule; its own pass
raises `predError 7` with no delivery, and as the first child of a
loop it aborts the loop before the active sibling (identity 3) is
visited. -/
theorem c7_predicate_failure_propagates_witness :
    restyle none widgetRaise [] (some []) = ([], some (Err.predError 7)) ∧
    restyleChildren none (.cons widgetRaise (.cons (Obj.widget 3 true .nil) .nil))
      [] [] = ([], some (Err.predError 7)) := by
  have h := c7_predicate_failure_propagates
  refine ⟨h.2 none 2 (.cons (.sheetChild sheetRaise) .nil) [] (some []) [] _
    rfl rfl, ?_⟩
  exact h.1 none 2 true (.cons (.sheetChild sheetRaise) .nil)
    (.cons (Obj.widget 3 true .nil) .nil) [] [] [] _
    (h.2 none 2 (.cons (.sheetChild sheetRaise) .nil) [] (some []) [] _ rfl rfl)

/-- C8: within one pass, deliveries happen in post-order and each
visited active node gets exactly one delivery.  For an active node
whose pass completes without an exception, the delivery log is exactly
the children's log (children visited in order, lines 219-221) followed
by the single delivery for the node itself (line 238); for an inactive
node the guard fires and the log is empty. -/
theorem c8_postorder_delivery (app : Option StyleSheet) (nid : Nat)
    (cs : ObjList) (ancUp : List Obj) (anc : Option (List Entry))
    (clog : List Delivery) (these : List Style)
    (hc : restyleChildren app cs (Obj.widget nid true cs :: ancUp)
        (extendSheets app ancUp anc cs) = (clog, none))
    (hs : computeNodeStyles nid (extendSheets app ancUp anc cs) cs = .ok these) :
    restyle app (Obj.widget nid true cs) ancUp anc =
      (clog ++ [(nid, these)], none) ∧
    restyle app (Obj.widget nid false cs) ancUp anc = ([], none) := by
  refine ⟨?_, rfl⟩
  have hun : restyle app (Obj.widget nid true cs) ancUp anc =
      (match restyleChildren app cs (Obj.widget nid true cs :: ancUp)
          (extendSheets app ancUp anc cs) with
        | (clog, some e) => (clog, some e)
        | (clog, none) =>
          match computeNodeStyles nid (extendSheets app ancUp anc cs) cs with
          | .error e => (clog, some e)
          | .ok these => (clog ++ [(nid, these)], none)) := rfl
  rw [hun, hc, hs]

/-- Witness for C8: an active parent (identity 0) with two active
childless children (identities 1, 2): the children are delivered first,
in order, then the parent, once. -/
theorem c8_postorder_delivery_witness :
    restyle none
      (Obj.widget 0 true (.cons (Obj.widget 1 true .nil)
        (.cons (Obj.widget 2 true .nil) .nil))) [] (some []) =
      ([(1, []), (2, []), (0, [])], none) ∧
    restyle none
      (Obj.widget 0 false (.cons (Obj.widget 1 true .nil)
        (.cons (Obj.widget 2 true .nil) .nil))) [] (some []) = ([], none) := by
  have h := c8_postorder_delivery none 0
    (.cons (Obj.widget 1 true .nil) (.cons (Obj.widget 2 true .nil) .nil))
    [] (some []) [(1, []), (2, [])] [] rfl rfl
  exact ⟨h.1, h.2⟩

/-- C9: `get_style` returns the *last* `Style` child in child order
(`None` when there is none), and `get_stylesheet` likewise the last
`StyleSheet` child — so with several children of the type, the resolver
silently uses only the last-authored one (`_restyle` consults only
`get_style`/`get_stylesheet`, lines 214 and 234). -/
theorem c9_getters_return_last_child (cs : ObjList) :
    get_style cs = (cs.toList.filterMap asStyle).getLast? ∧
    get_stylesheet cs = (cs.toList.filterMap asSheet).getLast? := by
  constructor
  · unfold get_style
    rw [List.filterMap_getLast?]
  · unfold get_stylesheet
    rw [List.filterMap_getLast?]

/-- C10: a `_restyle` call that receives a non-null precomputed
ancestors list leaves the caller's list object unchanged — lines
209-212 bind `sheets` to the slice copy `ancestors[:]` and only that
copy is ever mutated (line 216).  First conjunct: the caller's object
`a` holds the same contents after the call.  Second conjunct: the
call's deliveries and outcome are exactly the value-level `restyle` of
the *contents* of `a` at entry; together with the first conjunct this
is why every sibling in the child loop (line 221, which passes the same
object to each child) receives an identical ancestor chain. -/
theorem c10_caller_list_unchanged (app : Option StyleSheet) (o : Obj)
    (ancUp : List Obj) (a : Nat) (h : Heap) (ha : a < h.next) :
    (restyleH app o ancUp (some a) h).1.store a = h.store a ∧
    (restyleH app o ancUp (some a) h).2 = restyle app o ancUp (some (h.store a)) := by
  obtain ⟨-, hframe, href⟩ := restyleH_spec app o ancUp (some a) h
  exact ⟨hframe a ha, href a rfl ha⟩

/-- Witness for C10: the one-object heap `heap0` and the concrete
widget `widgetB`. -/
theorem c10_caller_list_unchanged_witness :
    0 < heap0.next ∧
    (restyleH none widgetB [] (some 0) heap0).1.store 0 = heap0.store 0 ∧
    (restyleH none widgetB [] (some 0) heap0).2 =
      restyle none widgetB [] (some (heap0.store 0)) := by
  have h := c10_caller_list_unchanged none widgetB [] 0 heap0 (by decide)
  exact ⟨by decide, h.1, h.2⟩

end Enaml
